import Mathlib

/-!
Verification of the Compact Protocol codec
(`lib/py/src/protocol/TCompactProtocol.py`).

Python arbitrary-precision integers are modelled by `Int`; the bitwise
operators `&`, `|`, `^`, `~`, `<<`, `>>` are the two's-complement operations
`Int.land`, `Int.lor`, `Int.xor`, `Int.lnot`, `<<<`, `>>>`, which agree with
Python's semantics on all integers.  Bytes on the wire are `Nat` values
(`ord`/`chr` of one-character strings).  Operations that can raise
(assertion failures, `struct.pack` range errors, `KeyError`, reading past
the end of the transport, `TException`) return `none`; a loop that does not
terminate is modelled with explicit fuel.
-/

/-- Model of `makeZigZag(n, bits)` from the source: `(n << 1) ^ (n >> (bits - 1))`. -/
def makeZigZag (n : Int) (bits : Nat) : Int :=
  Int.xor (n <<< (1 : Int)) (n >>> ((bits : Int) - 1))

/-- Model of `fromZigZag(n)` from the source: `(n >> 1) ^ -(n & 1)`. -/
def fromZigZag (n : Int) : Int :=
  Int.xor (n >>> (1 : Int)) (-(Int.land n 1))

/-- The loop body of `writeVarint(trans, n)`, with explicit fuel: each
iteration appends `n` if `n & ~0x7f == 0`, else appends `(n & 0xff) | 0x80`
and continues with `n >> 7`.  The appended values always lie in `[0, 255]`
(`chr` requires this), so they are emitted as `Nat` bytes via `Int.toNat`. -/
def writeVarintLoop : Nat → Int → List Nat → Option (List Nat)
  | 0, _, _ => none
  | fuel + 1, n, out =>
    if Int.land n (Int.lnot 0x7f) = 0 then
      some (out ++ [n.toNat])
    else
      writeVarintLoop fuel (n >>> (7 : Int))
        (out ++ [(Int.lor (Int.land n 0xff) 0x80).toNat])

/-- Model of `writeVarint(trans, n)`: the bytes appended to the transport.  The fuel
`n.toNat + 1` is sufficient for every `n ≥ 0` (proved below); for `n < 0`
the loop never terminates at any fuel (also proved below), so the result is
`none`. -/
def writeVarint (n : Int) : Option (List Nat) :=
  writeVarintLoop (n.toNat + 1) n []

/-- The loop of `readVarint(trans)`: read one byte, or its low 7 bits into
the accumulator, stop when the high bit is clear; `none` models `readAll`
hitting the end of the stream. -/
def readVarintLoop : List Nat → Nat → Nat → Option (Nat × List Nat)
  | [], _, _ => none
  | b :: rest, result, shift =>
    let r := result ||| ((b &&& 0x7f) <<< shift)
    if b >>> 7 = 0 then some (r, rest)
    else readVarintLoop rest r (shift + 7)

/-- Model of `readVarint(trans)` on a byte stream: the decoded value and the
remaining bytes. -/
def readVarint (l : List Nat) : Option (Nat × List Nat) :=
  readVarintLoop l 0 0

/-- Specification-level byte string of the varint encoding of a natural
number, as a structurally recursive (hence kernel-computable) function.
`varintBytesAux fuel n` equals the true encoding whenever `n ≤ fuel`. -/
def varintBytesAux : Nat → Nat → List Nat
  | 0, n => [n]
  | fuel + 1, n =>
    if n < 128 then [n]
    else ((n &&& 255) ||| 128) :: varintBytesAux fuel (n >>> 7)

/-- The varint encoding of `n ≥ 0` as a concrete byte list. -/
def varintBytesN (n : Nat) : List Nat := varintBytesAux n n

/-- The quantity `max(1, ceil(bitlen(n) / 7))`: the number of bytes of the
varint encoding (`Nat.size` is the bit length). -/
def varintLen (n : Nat) : Nat := max 1 ((Nat.size n + 6) / 7)

/-! ## Type kinds and wire codes -/

/-- The abstract type kinds (`TType` of the framework).  Only the numeric
value of `STOP` (zero) is observable on the wire: a field byte whose low
nibble is 0 marks end-of-struct (spec section 4.5). -/
inductive TType where
  | stop
  | bool
  | byte
  | double
  | i16
  | i32
  | i64
  | string
  | struct
  | tmap
  | tset
  | tlist
deriving DecidableEq

/-- Model of `CompactType.TRUE = 1` (class `CompactType` in the source). -/
def CompactTRUE : Nat := 1

/-- Model of `CompactType.FALSE = 2`. -/
def CompactFALSE : Nat := 2

/-- The `CTYPES` dictionary: abstract kind to compact wire code.  `BOOL`
maps to `CompactType.TRUE` (used for collections); `STOP` is not a key, so
looking it up is a `KeyError` (`none`). -/
def CTYPES : TType → Option Nat
  | .bool => some 1
  | .byte => some 3
  | .i16 => some 4
  | .i32 => some 5
  | .i64 => some 6
  | .double => some 7
  | .string => some 8
  | .struct => some 12
  | .tlist => some 9
  | .tset => some 10
  | .tmap => some 11
  | .stop => none

/-- The `TTYPES` dictionary, built by inverting `CTYPES` and adding
`CompactType.FALSE -> BOOL`.  Note that `0` is NOT a key: the source never
adds an entry for wire code 0, so `TTYPES[0]` raises `KeyError`. -/
def TTYPES : Nat → Option TType
  | 1 => some .bool
  | 2 => some .bool
  | 3 => some .byte
  | 4 => some .i16
  | 5 => some .i32
  | 6 => some .i64
  | 7 => some .double
  | 8 => some .string
  | 9 => some .tlist
  | 10 => some .tset
  | 11 => some .tmap
  | 12 => some .struct
  | _ => none

/-! ## Codec state -/

def CLEAR : Nat := 0

def WRITE : Nat := 1

def BOOL_WRITE : Nat := 2

def VALUE_WRITE : Nat := 3

def CONTAINER_WRITE : Nat := 7

def READ : Nat := 4

def VALUE_READ : Nat := 6

def CONTAINER_READ : Nat := 8

def TRUE_READ : Nat := 9

def FALSE_READ : Nat := 10

def PROTOCOL_ID : Nat := 0x82

def VERSION : Nat := 1

def VERSION_MASK : Nat := 0x1f

def TYPE_MASK : Nat := 0xe0

def TYPE_SHIFT_AMOUNT : Nat := 5

/-- A `TCompactProtocol` instance together with its transport: `out` is the
byte string written so far, `inp` the bytes still to be read, and `state`,
`last_fid` (`__last_fid`), `bool_fid` (`__bool_fid`), `structs`
(`__structs`) are the instance attributes set up by `__init__`. -/
structure Codec where
  out : List Nat
  inp : List Nat
  state : Nat
  last_fid : Int
  bool_fid : Option Int
  structs : List (Nat × Int)
deriving DecidableEq

/-- A freshly constructed codec (`TCompactProtocol.__init__`): state
`CLEAR`, `__last_fid = 0`, `__bool_fid = None`, `__structs = []`. -/
def initCodec (inbytes : List Nat) : Codec :=
  { out := [], inp := inbytes, state := CLEAR, last_fid := 0,
    bool_fid := none, structs := [] }

/-- Model of `self.trans.write(bs)`. -/
def transWrite (c : Codec) (bs : List Nat) : Codec :=
  { c with out := c.out ++ bs }

/-- Model of `self.trans.readAll(n)`: exactly `n` bytes, or failure at end of
stream. -/
def readAllC (c : Codec) (n : Nat) : Option (List Nat × Codec) :=
  if n ≤ c.inp.length then some (c.inp.take n, { c with inp := c.inp.drop n })
  else none

/-! ## Byte-level writers and readers -/

/-- Model of `__writeUByte`: `pack('!B', byte)` requires `0 <= byte < 256`. -/
def writeUByte (c : Codec) (v : Int) : Option Codec :=
  if 0 ≤ v ∧ v < 256 then some (transWrite c [v.toNat]) else none

/-- Model of `__writeByte`: `pack('!b', byte)` requires `-128 <= byte <= 127`, and
emits the two's-complement octet. -/
def writeByteP (c : Codec) (v : Int) : Option Codec :=
  if -128 ≤ v ∧ v ≤ 127 then some (transWrite c [(v % 256).toNat]) else none

/-- Model of `__writeVarint(n)`, i.e. `writeVarint(self.trans, n)`. -/
def writeVarintC (c : Codec) (n : Int) : Option Codec :=
  (writeVarint n).map (transWrite c)

/-- Model of `__writeI16(i16)`: the zigzag of the value at width 16, as a varint. -/
def writeI16P (c : Codec) (v : Int) : Option Codec :=
  writeVarintC c (makeZigZag v 16)

/-- Model of `__writeSize(i32)`: just a varint. -/
def writeSize (c : Codec) (v : Int) : Option Codec :=
  writeVarintC c v

/-- Model of `__writeString(s)`: the size then the raw bytes. -/
def writeStringP (c : Codec) (s : List Nat) : Option Codec :=
  match writeSize c (s.length : Int) with
  | none => none
  | some c1 => some (transWrite c1 s)

/-- Model of `__readUByte`: one byte via `unpack('!B', readAll(1))`. -/
def readUByte (c : Codec) : Option (Nat × Codec) :=
  match c.inp with
  | [] => none
  | b :: rest => some (b, { c with inp := rest })

/-- Model of `__readByte`: one byte via `unpack('!b', ...)`, sign-extended. -/
def readByteP (c : Codec) : Option (Int × Codec) :=
  match c.inp with
  | [] => none
  | b :: rest =>
    some (if b < 128 then (b : Int) else (b : Int) - 256, { c with inp := rest })

/-- Model of `readVarint(self.trans)` acting on the codec's input. -/
def readVarintC (c : Codec) : Option (Nat × Codec) :=
  match readVarint c.inp with
  | none => none
  | some (n, rest) => some (n, { c with inp := rest })

/-- Model of `__readVarint`: its body is `return readVarint(self.trans)`; the loop
after that `return` statement (the one masking with `0xf7`) is dead code
and never executes, so the method is exactly `readVarint`. -/
def readVarintP (c : Codec) : Option (Nat × Codec) :=
  readVarintC c

/-- Model of `__readZigZag` (also bound as `__readI16`): `fromZigZag(readVarint())`. -/
def readZigZagP (c : Codec) : Option (Int × Codec) :=
  match readVarintC c with
  | none => none
  | some (n, c1) => some (fromZigZag (n : Int), c1)

/-- Model of `__getTType(byte)`: `TTYPES[byte & 0x0f]`; `none` is a `KeyError`. -/
def getTType (b : Nat) : Option TType :=
  TTYPES (b &&& 0x0f)

/-- Model of `__readSize()`: a varint, rejected with `TException` when above
`0x7fff`.  (The `result < 0` branch of the source can never fire, since a
decoded varint is non-negative.) -/
def readSizeP (c : Codec) : Option (Nat × Codec) :=
  match readVarintC c with
  | none => none
  | some (result, c1) =>
    if result > 0x7fff then none
    else if result < 0 then none
    else some (result, c1)

/-- Model of `__readString()`: a size then that many raw bytes. -/
def readStringP (c : Codec) : Option (List Nat × Codec) :=
  match readSizeP c with
  | none => none
  | some (len, c1) => readAllC c1 len

/-! ## Protocol operations, write side -/

/-- Model of `writeMessageBegin(name, type, seqid)`: requires state `CLEAR`; emits
the protocol id, the version/type byte, the seqid varint and the name;
moves to `WRITE`. -/
def writeMessageBegin (c : Codec) (name : List Nat) (mtype seqid : Int) :
    Option Codec :=
  if c.state = CLEAR then
    match writeUByte c (PROTOCOL_ID : Nat) with
    | none => none
    | some c1 =>
      match writeUByte c1 (Int.lor (VERSION : Nat) (mtype <<< ((TYPE_SHIFT_AMOUNT : Nat) : Int))) with
      | none => none
      | some c2 =>
        match writeVarintC c2 seqid with
        | none => none
        | some c3 =>
          match writeStringP c3 name with
          | none => none
          | some c4 => some { c4 with state := WRITE }
  else none

/-- Model of `writeMessageEnd()`: requires `WRITE`, returns to `CLEAR`. -/
def writeMessageEnd (c : Codec) : Option Codec :=
  if c.state = WRITE then some { c with state := CLEAR } else none

/-- Model of `writeStructBegin(name)`: pushes `(state, __last_fid)`, moves to
`WRITE`, resets `__last_fid` to 0. -/
def writeStructBegin (c : Codec) : Option Codec :=
  if c.state = CLEAR ∨ c.state = WRITE ∨ c.state = CONTAINER_WRITE ∨
      c.state = VALUE_WRITE then
    some { c with structs := (c.state, c.last_fid) :: c.structs,
                  state := WRITE, last_fid := 0 }
  else none

/-- Model of `writeStructEnd()`: pops `(state, __last_fid)`; a restored
`VALUE_WRITE` collapses to `WRITE`. -/
def writeStructEnd (c : Codec) : Option Codec :=
  if c.state = WRITE then
    match c.structs with
    | [] => none
    | (s, f) :: rest =>
      some { c with state := if s = VALUE_WRITE then WRITE else s,
                    last_fid := f, structs := rest }
  else none

/-- Model of `writeCollectionEnd()` (= `writeMapEnd` = `writeSetEnd` =
`writeListEnd`): requires `CONTAINER_WRITE`, returns to `WRITE`. -/
def writeCollectionEnd (c : Codec) : Option Codec :=
  if c.state = CONTAINER_WRITE then some { c with state := WRITE } else none

/-- Model of `__writeFieldHeader(type, fid)`: the short form `(delta << 4) | type`
when `0 < delta <= 15`, otherwise the type byte followed by the zigzag
varint of `fid`; then `__last_fid = fid`. -/
def writeFieldHeaderP (c : Codec) (ty : Nat) (fid : Int) : Option Codec :=
  match
    (if 0 < fid - c.last_fid ∧ fid - c.last_fid ≤ 15 then
      writeUByte c (Int.lor ((fid - c.last_fid) <<< (4 : Int)) (ty : Nat))
    else
      match writeByteP c (ty : Nat) with
      | none => none
      | some c1 => writeI16P c1 fid) with
  | none => none
  | some c2 => some { c2 with last_fid := fid }

/-- Model of `writeFieldBegin(name, type, fid)`: requires `WRITE`.  A `BOOL` field
latches `(BOOL_WRITE, fid)` and emits nothing; any other type emits its
field header and moves to `VALUE_WRITE`.  (The source sets the state before
writing the header; on failure the codec is poisoned either way.) -/
def writeFieldBegin (c : Codec) (_name : List Nat) (ty : TType) (fid : Int) :
    Option Codec :=
  if c.state = WRITE then
    if ty = .bool then
      some { c with state := BOOL_WRITE, bool_fid := some fid }
    else
      match CTYPES ty with
      | none => none
      | some ct =>
        match writeFieldHeaderP c ct fid with
        | none => none
        | some c1 => some { c1 with state := VALUE_WRITE }
  else none

/-- Modelled from the spec: the mapping `types` referenced by
`writeBool` is not defined anywhere under `src/`; the spec (Design Notes)
states that it "should resolve to `{False: FALSE code, True: TRUE code}`"
and that implementations must supply it explicitly. -/
def types (b : Bool) : Nat :=
  if b then CompactTRUE else CompactFALSE

/-- Model of `writeBool(bool)`: in `BOOL_WRITE` emits the latched field header with
wire type `types[bool]`; in `VALUE_WRITE` emits one byte `int(bool)`; in
any other state (including `CONTAINER_WRITE`) it raises
("Invalid state in compact protocol").  Afterwards the state is set to
`WRITE` unconditionally; `__bool_fid` is never cleared. -/
def writeBool (c : Codec) (b : Bool) : Option Codec :=
  match
    (if c.state = BOOL_WRITE then
      match c.bool_fid with
      | none => none
      | some fid => writeFieldHeaderP c (types b) fid
    else if c.state = VALUE_WRITE then
      writeByteP c (if b then 1 else 0)
    else none) with
  | none => none
  | some c1 => some { c1 with state := WRITE }

/-- The `writer` decorator (`make_helper(VALUE_WRITE, WRITE,
CONTAINER_WRITE)`): asserts the state is `VALUE_WRITE` or
`CONTAINER_WRITE`, runs the body, and finally collapses `VALUE_WRITE` to
`WRITE`. -/
def writer (f : Codec → Option Codec) (c : Codec) : Option Codec :=
  if c.state = VALUE_WRITE ∨ c.state = CONTAINER_WRITE then
    match f c with
    | none => none
    | some c1 =>
      some (if c1.state = VALUE_WRITE then { c1 with state := WRITE } else c1)
  else none

/-- Model of `writeByte = writer(__writeByte)`. -/
def writeByte (c : Codec) (v : Int) : Option Codec :=
  writer (fun c0 => writeByteP c0 v) c

/-- Model of `writeI16 = writer(__writeI16)`. -/
def writeI16 (c : Codec) (v : Int) : Option Codec :=
  writer (fun c0 => writeI16P c0 v) c

/-- Model of `writeI32`: zigzag at width 32, as a varint (decorated). -/
def writeI32 (c : Codec) (v : Int) : Option Codec :=
  writer (fun c0 => writeVarintC c0 (makeZigZag v 32)) c

/-- Model of `writeI64`: zigzag at width 64, as a varint (decorated). -/
def writeI64 (c : Codec) (v : Int) : Option Codec :=
  writer (fun c0 => writeVarintC c0 (makeZigZag v 64)) c

/-- Model of `writeDouble`: `pack('!d', dub)`, eight big-endian bytes.  The value is
modelled by its IEEE-754 bit pattern `bits < 2^64` (the float-to-bits
conversion is the `struct` library's). -/
def writeDouble (c : Codec) (bits : Nat) : Option Codec :=
  writer (fun c0 => some (transWrite c0
    [bits >>> 56 &&& 255, bits >>> 48 &&& 255, bits >>> 40 &&& 255,
     bits >>> 32 &&& 255, bits >>> 24 &&& 255, bits >>> 16 &&& 255,
     bits >>> 8 &&& 255, bits &&& 255])) c

/-- Model of `writeString = writer(__writeString)`. -/
def writeString (c : Codec) (s : List Nat) : Option Codec :=
  writer (fun c0 => writeStringP c0 s) c

/-- Model of `writeCollectionBegin(etype, size)` (= `writeSetBegin` =
`writeListBegin`): requires `VALUE_WRITE`; small sizes (at most 14) go in
the header nibble, larger ones as `0xf0 | ctype` then a size varint; moves
to `CONTAINER_WRITE`.  (For a negative size the packed byte is negative
and `pack('!B', ...)` raises.) -/
def writeCollectionBegin (c : Codec) (etype : TType) (size : Int) :
    Option Codec :=
  if c.state = VALUE_WRITE then
    match CTYPES etype with
    | none => none
    | some ct =>
      match
        (if size ≤ 14 then
          writeUByte c (Int.lor (size <<< (4 : Int)) (ct : Nat))
        else
          match writeUByte c (Int.lor (0xf0 : Nat) (ct : Nat)) with
          | none => none
          | some c1 => writeSize c1 size) with
      | none => none
      | some c2 => some { c2 with state := CONTAINER_WRITE }
  else none

/-- Model of `writeMapBegin(ktype, vtype, size)`: requires `VALUE_WRITE`; an empty
map is the single byte `0x00`, otherwise the size varint then the packed
key/value type byte; moves to `CONTAINER_WRITE`. -/
def writeMapBegin (c : Codec) (ktype vtype : TType) (size : Int) :
    Option Codec :=
  if c.state = VALUE_WRITE then
    match
      (if size = 0 then
        writeByteP c 0
      else
        match writeSize c size with
        | none => none
        | some c1 =>
          match CTYPES ktype, CTYPES vtype with
          | some kc, some vc =>
            writeUByte c1 (Int.lor ((kc : Int) <<< (4 : Int)) (vc : Nat))
          | _, _ => none) with
    | none => none
    | some c2 => some { c2 with state := CONTAINER_WRITE }
  else none

/-- Model of `writeFieldStop()`: a single zero byte; no state assertion, no state
change. -/
def writeFieldStop (c : Codec) : Option Codec :=
  writeByteP c 0

/-! ## Protocol operations, read side -/

/-- Model of `readMessageBegin()`: requires `CLEAR`; checks the protocol id and the
version, reads the seqid varint and the name, and returns
`(name, type, seqid)`.  NOTE: unlike `writeMessageBegin`, the source never
assigns `self.state`, so the state remains `CLEAR`. -/
def readMessageBegin (c : Codec) : Option ((List Nat × Nat × Nat) × Codec) :=
  if c.state = CLEAR then
    match readUByte c with
    | none => none
    | some (proto_id, c1) =>
      if proto_id ≠ PROTOCOL_ID then none
      else
        match readUByte c1 with
        | none => none
        | some (ver_type, c2) =>
          let mtype := (ver_type &&& TYPE_MASK) >>> TYPE_SHIFT_AMOUNT
          let version := ver_type &&& VERSION_MASK
          if version ≠ VERSION then none
          else
            match readVarintC c2 with
            | none => none
            | some (seqid, c3) =>
              match readStringP c3 with
              | none => none
              | some (name, c4) => some ((name, mtype, seqid), c4)
  else none

/-- Model of `readMessageEnd()`: asserts state `READ` and an empty struct stack,
then returns to `CLEAR`. -/
def readMessageEnd (c : Codec) : Option Codec :=
  if c.state = READ ∧ c.structs = [] then some { c with state := CLEAR }
  else none

/-- Model of `readStructBegin()`: pushes `(state, __last_fid)`, moves to `READ`,
resets `__last_fid`. -/
def readStructBegin (c : Codec) : Option Codec :=
  if c.state = CLEAR ∨ c.state = READ ∨ c.state = CONTAINER_READ ∨
      c.state = VALUE_READ then
    some { c with structs := (c.state, c.last_fid) :: c.structs,
                  state := READ, last_fid := 0 }
  else none

/-- Model of `readStructEnd()`: pops `(state, __last_fid)`; a restored `VALUE_READ`
collapses to `READ`. -/
def readStructEnd (c : Codec) : Option Codec :=
  if c.state = READ then
    match c.structs with
    | [] => none
    | (s, f) :: rest =>
      some { c with state := if s = VALUE_READ then READ else s,
                    last_fid := f, structs := rest }
  else none

/-- Model of `readFieldBegin()`: requires `READ`.  A byte with zero low nibble is
the STOP sentinel (`TType.STOP = 0`), returned without a state change.
Otherwise the field id comes from the delta nibble or, when that nibble is
zero, from an absolute zigzag-varint int16; the state becomes `TRUE_READ`
or `FALSE_READ` for the boolean wire types and `VALUE_READ` otherwise, and
the wire type is mapped back through `TTYPES`. -/
def readFieldBegin (c : Codec) : Option ((TType × Int) × Codec) :=
  if c.state = READ then
    match readUByte c with
    | none => none
    | some (b, c1) =>
      if b &&& 0x0f = 0 then
        some ((.stop, 0), c1)
      else
        match
          (if b >>> 4 = 0 then readZigZagP c1
           else some ((c1.last_fid + (b >>> 4 : Nat) : Int), c1)) with
        | none => none
        | some (fid, c2) =>
          let ty := b &&& 0x0f
          match TTYPES ty with
          | none => none
          | some k =>
            let st := if ty = CompactTRUE then TRUE_READ
              else if ty = CompactFALSE then FALSE_READ
              else VALUE_READ
            some ((k, fid), { c2 with last_fid := fid, state := st })
  else none

/-- Model of `readCollectionBegin()` (= `readSetBegin` = `readListBegin`): requires
`VALUE_READ`; sets `CONTAINER_READ`, reads the size/type byte, and reads a
varint size when the size nibble is 15. -/
def readCollectionBegin (c : Codec) : Option ((TType × Nat) × Codec) :=
  if c.state = VALUE_READ then
    match readUByte { c with state := CONTAINER_READ } with
    | none => none
    | some (size_type, c1) =>
      match getTType size_type with
      | none => none
      | some ty =>
        if size_type >>> 4 = 15 then
          match readSizeP c1 with
          | none => none
          | some (sz, c2) => some ((ty, sz), c2)
        else some ((ty, size_type >>> 4), c1)
  else none

/-- Model of `readMapBegin()`: requires `VALUE_READ`; sets `CONTAINER_READ`, reads
the size, then (only when the size is positive) the packed key/value type
byte, and maps both nibbles through `__getTType`.  For an empty map the
lookup is `TTYPES[0]`, which is not a key of `TTYPES`. -/
def readMapBegin (c : Codec) : Option ((TType × TType × Nat) × Codec) :=
  if c.state = VALUE_READ then
    match readSizeP { c with state := CONTAINER_READ } with
    | none => none
    | some (size, c1) =>
      match (if size > 0 then readUByte c1 else some (0, c1)) with
      | none => none
      | some (tys, c2) =>
        match getTType tys with
        | none => none
        | some vtype =>
          match getTType (tys >>> 4) with
          | none => none
          | some ktype => some ((ktype, vtype, size), c2)
  else none

/-- Model of `readCollectionEnd()` (= `readSetEnd` = `readListEnd` = `readMapEnd`):
requires `CONTAINER_READ`, returns to `READ`. -/
def readCollectionEnd (c : Codec) : Option Codec :=
  if c.state = CONTAINER_READ then some { c with state := READ } else none

/-- Model of `readBool()`: `TRUE_READ`/`FALSE_READ` yield the value folded into the
field header and return to `READ` without consuming bytes;
`CONTAINER_READ` reads one byte and stays in `CONTAINER_READ`; any other
state raises. -/
def readBool (c : Codec) : Option (Bool × Codec) :=
  if c.state = TRUE_READ then some (true, { c with state := READ })
  else if c.state = FALSE_READ then some (false, { c with state := READ })
  else if c.state = CONTAINER_READ then
    match readByteP c with
    | none => none
    | some (b, c1) => some (b ≠ 0, { c1 with state := CONTAINER_READ })
  else none

/-- The `reader` decorator (`make_helper(VALUE_READ, READ,
CONTAINER_READ)`). -/
def reader {α : Type} (f : Codec → Option (α × Codec)) (c : Codec) :
    Option (α × Codec) :=
  if c.state = VALUE_READ ∨ c.state = CONTAINER_READ then
    match f c with
    | none => none
    | some (a, c1) =>
      some (a, if c1.state = VALUE_READ then { c1 with state := READ } else c1)
  else none

/-- Model of `readByte = reader(__readByte)`. -/
def readByte (c : Codec) : Option (Int × Codec) :=
  reader readByteP c

/-- Model of `readI16 = reader(__readZigZag)`. -/
def readI16 (c : Codec) : Option (Int × Codec) :=
  reader readZigZagP c

/-- Model of `readI32 = reader(__readZigZag)`. -/
def readI32 (c : Codec) : Option (Int × Codec) :=
  reader readZigZagP c

/-- Model of `readI64 = reader(__readZigZag)`. -/
def readI64 (c : Codec) : Option (Int × Codec) :=
  reader readZigZagP c

/-- Model of `readDouble`: eight big-endian bytes, returned as the IEEE-754 bit
pattern (see `writeDouble`). -/
def readDouble (c : Codec) : Option (Nat × Codec) :=
  reader (fun c0 =>
    match readAllC c0 8 with
    | none => none
    | some (bs, c1) => some (bs.foldl (fun a b => a * 256 + b) 0, c1)) c

/-- Model of `readString = reader(__readString)`. -/
def readString (c : Codec) : Option (List Nat × Codec) :=
  reader readStringP c

/-! ## Write-operation traces (for reachability statements) -/

/-- One public write operation of the codec, with its arguments. -/
inductive WOp where
  | messageBegin (name : List Nat) (mtype seqid : Int)
  | messageEnd
  | structBegin
  | structEnd
  | fieldBegin (name : List Nat) (ty : TType) (fid : Int)
  | fieldStop
  | wbool (b : Bool)
  | wbyte (v : Int)
  | wi16 (v : Int)
  | wi32 (v : Int)
  | wi64 (v : Int)
  | wdouble (bits : Nat)
  | wstring (s : List Nat)
  | collectionBegin (etype : TType) (size : Int)
  | mapBegin (ktype vtype : TType) (size : Int)
  | collectionEnd

/-- Run one write operation. -/
def applyWOp (c : Codec) : WOp → Option Codec
  | .messageBegin name t s => writeMessageBegin c name t s
  | .messageEnd => writeMessageEnd c
  | .structBegin => writeStructBegin c
  | .structEnd => writeStructEnd c
  | .fieldBegin name ty fid => writeFieldBegin c name ty fid
  | .fieldStop => writeFieldStop c
  | .wbool b => writeBool c b
  | .wbyte v => writeByte c v
  | .wi16 v => writeI16 c v
  | .wi32 v => writeI32 c v
  | .wi64 v => writeI64 c v
  | .wdouble bits => writeDouble c bits
  | .wstring s => writeString c s
  | .collectionBegin ety sz => writeCollectionBegin c ety sz
  | .mapBegin kt vt sz => writeMapBegin c kt vt sz
  | .collectionEnd => writeCollectionEnd c

/-- Run a sequence of write operations; `none` as soon as one fails. -/
def applyWOps (c : Codec) : List WOp → Option Codec
  | [] => some c
  | op :: ops =>
    match applyWOp c op with
    | none => none
    | some c1 => applyWOps c1 ops

/-! ## Concrete traces used as evidence -/

/-- The message bytes of the spec's first concrete scenario: an empty
"ping" CALL message, `82 21 00 04 70 69 6E 67 00`. -/
def pingBytes : List Nat := [0x82, 0x21, 0x00, 0x04, 0x70, 0x69, 0x6e, 0x67, 0x00]

/-- A complete legal read of one message: `readMessageBegin`,
`readStructBegin`, `readFieldBegin` (STOP), `readStructEnd`,
`readMessageEnd`. -/
def readPingTrace : Option Codec :=
  match readMessageBegin (initCodec pingBytes) with
  | none => none
  | some (_, c1) =>
    match readStructBegin c1 with
    | none => none
    | some c2 =>
      match readFieldBegin c2 with
      | none => none
      | some (_, c3) =>
        match readStructEnd c3 with
        | none => none
        | some c4 => readMessageEnd c4

/-- Write operations reaching `BOOL_WRITE` and then completing the boolean
field: struct begin, a boolean field with id 1, the value `True`. -/
def boolFieldTrace : List WOp :=
  [.structBegin, .fieldBegin [] .bool 1, .wbool true]

/-- Write operations reaching `CONTAINER_WRITE` with a list of booleans
and then writing a boolean element. -/
def listBoolTrace : List WOp :=
  [.structBegin, .fieldBegin [] .tlist 1, .collectionBegin .bool 1,
   .wbool true]

/-! ## ZigZag lemmas -/

lemma int_shiftLeft_one (n : Int) : n <<< (1 : Int) = 2 * n := by
  cases n with
  | ofNat m =>
    rw [Int.ofNat_eq_coe, show (1 : Int) = ((1 : Nat) : Int) from rfl,
      Int.shiftLeft_coe_nat]
    simp [Nat.shiftLeft_eq, Nat.mul_comm]
    ring
  | negSucc m =>
    rw [show (1 : Int) = ((1 : Nat) : Int) from rfl, Int.shiftLeft_negSucc]
    simp [Nat.shiftLeft', Nat.bit, Int.negSucc_eq]
    ring

lemma int_shiftRight_nonneg_small {n : Int} {k : Nat} (h0 : 0 ≤ n) (h : n < 2 ^ k) :
    n >>> (k : Int) = 0 := by
  obtain ⟨m, rfl⟩ := Int.eq_ofNat_of_zero_le h0
  rw [Int.shiftRight_coe_nat]
  have hm : m < 2 ^ k := by exact_mod_cast h
  simp [Nat.shiftRight_eq_div_pow, Nat.div_eq_of_lt hm]

lemma int_shiftRight_neg_small {n : Int} {k : Nat} (h0 : n < 0) (h : -(2 ^ k) ≤ n) :
    n >>> (k : Int) = -1 := by
  cases n with
  | ofNat m => exact absurd h0 (by simp)
  | negSucc m =>
    rw [Int.shiftRight_negSucc]
    have hc : ((2 ^ k : Nat) : Int) = 2 ^ k := by push_cast; ring
    have hm : m < 2 ^ k := by
      rw [Int.negSucc_eq] at h
      omega
    have hz : m >>> k = 0 := by
      simp [Nat.shiftRight_eq_div_pow, Nat.div_eq_of_lt hm]
    rw [hz]
    rfl

lemma int_xor_zero (n : Int) : Int.xor n 0 = n := by
  cases n with
  | ofNat m => show Int.xor (Int.ofNat m) (Int.ofNat 0) = _; simp [Int.xor]
  | negSucc m => show Int.xor (Int.negSucc m) (Int.ofNat 0) = _; simp [Int.xor]

lemma int_xor_neg_one (n : Int) : Int.xor n (-1) = -n - 1 := by
  cases n with
  | ofNat m =>
    show Int.xor (Int.ofNat m) (Int.negSucc 0) = _
    simp [Int.xor, Int.negSucc_eq]
    ring
  | negSucc m =>
    show Int.xor (Int.negSucc m) (Int.negSucc 0) = _
    simp [Int.xor, Int.negSucc_eq]

lemma int_land_coe (a b : Nat) : Int.land (a : Int) (b : Int) = ((a &&& b : Nat) : Int) := rfl

lemma int_lor_coe (a b : Nat) : Int.lor (a : Int) (b : Int) = ((a ||| b : Nat) : Int) := rfl

lemma makeZigZag_eq {w : Nat} (hw : 1 ≤ w) {n : Int}
    (h1 : -(2 ^ (w - 1)) ≤ n) (h2 : n < 2 ^ (w - 1)) :
    makeZigZag n w = if 0 ≤ n then 2 * n else -2 * n - 1 := by
  unfold makeZigZag
  have hcast : ((w : Int) - 1) = ((w - 1 : Nat) : Int) := by omega
  rw [hcast, int_shiftLeft_one]
  by_cases h0 : 0 ≤ n
  · rw [int_shiftRight_nonneg_small h0 h2, int_xor_zero, if_pos h0]
  · push_neg at h0
    rw [int_shiftRight_neg_small h0 h1, int_xor_neg_one, if_neg (by omega)]
    ring

lemma shiftRight_one_coe (m : Nat) : ((m : Int) >>> (1 : Int)) = ((m >>> 1 : Nat) : Int) := by
  rw [show (1 : Int) = ((1 : Nat) : Int) from rfl, Int.shiftRight_coe_nat]

lemma fromZigZag_coe (m : Nat) :
    fromZigZag (m : Int) = if m % 2 = 0 then ((m >>> 1 : Nat) : Int) else -((m >>> 1 : Nat) : Int) - 1 := by
  unfold fromZigZag
  rw [shiftRight_one_coe, show (1 : Int) = ((1 : Nat) : Int) from rfl, int_land_coe,
    Nat.and_one_is_mod]
  by_cases hp : m % 2 = 0
  · rw [hp, if_pos rfl]
    show Int.xor _ 0 = _
    rw [int_xor_zero]
  · have h1 : m % 2 = 1 := by omega
    rw [h1, if_neg (show ¬(1 : Nat) = 0 by omega)]
    show Int.xor _ (-1) = _
    rw [int_xor_neg_one]
    push_cast
    ring

lemma zigzag_roundtrip {w : Nat} (hw : 1 ≤ w) {n : Int}
    (h1 : -(2 ^ (w - 1)) ≤ n) (h2 : n < 2 ^ (w - 1)) :
    fromZigZag (makeZigZag n w) = n := by
  rw [makeZigZag_eq hw h1 h2]
  by_cases h0 : 0 ≤ n
  · rw [if_pos h0]
    obtain ⟨m, rfl⟩ := Int.eq_ofNat_of_zero_le h0
    rw [show (2 * (m : Int)) = ((2 * m : Nat) : Int) by push_cast; ring, fromZigZag_coe]
    rw [if_pos (by omega)]
    have : (2 * m) >>> 1 = m := by
      rw [Nat.shiftRight_eq_div_pow]
      omega
    rw [this]
  · push_neg at h0
    rw [if_neg (by omega)]
    cases n with
    | ofNat m => exact absurd h0 (by simp)
    | negSucc m =>
      rw [show (-2 * Int.negSucc m - 1) = ((2 * m + 1 : Nat) : Int) by
        rw [Int.negSucc_eq]; push_cast; ring]
      rw [fromZigZag_coe, if_neg (by omega)]
      have : (2 * m + 1) >>> 1 = m := by
        rw [Nat.shiftRight_eq_div_pow]
        omega
      rw [this, Int.negSucc_eq]
      ring

lemma int_xor_coe (a b : Nat) : Int.xor (a : Int) (b : Int) = ((a ^^^ b : Nat) : Int) := rfl

lemma int_xor_negSucc (a b : Nat) :
    Int.xor (Int.negSucc a) (Int.negSucc b) = ((a ^^^ b : Nat) : Int) := rfl

lemma int_shiftRight_coe_exists (m : Nat) (k : Int) : ∃ a : Nat, (m : Int) >>> k = (a : Int) := by
  cases k with
  | ofNat j =>
    refine ⟨m >>> j, ?_⟩
    rw [show Int.ofNat j = ((j : Nat) : Int) from rfl, Int.shiftRight_coe_nat]
  | negSucc j =>
    refine ⟨m <<< (j + 1), ?_⟩
    show (m : Int) <<< (((j + 1 : Nat)) : Int) = _
    rw [Int.shiftLeft_coe_nat]

lemma int_shiftRight_negSucc_exists (m : Nat) (k : Int) :
    ∃ a : Nat, Int.negSucc m >>> k = Int.negSucc a := by
  cases k with
  | ofNat j =>
    refine ⟨m >>> j, ?_⟩
    rw [show Int.ofNat j = ((j : Nat) : Int) from rfl, Int.shiftRight_negSucc]
  | negSucc j =>
    refine ⟨Nat.shiftLeft' true m (j + 1), ?_⟩
    show Int.negSucc m <<< (((j + 1 : Nat)) : Int) = _
    rw [Int.shiftLeft_negSucc]

lemma makeZigZag_nonneg (n : Int) (w : Nat) : 0 ≤ makeZigZag n w := by
  unfold makeZigZag
  cases n with
  | ofNat m =>
    obtain ⟨a, ha⟩ := int_shiftRight_coe_exists m ((w : Int) - 1)
    rw [int_shiftLeft_one, show (2 * Int.ofNat m) = ((2 * m : Nat) : Int) by rw [Int.ofNat_eq_coe]; push_cast; ring,
      show Int.ofNat m = ((m : Nat) : Int) from rfl, ha, int_xor_coe]
    positivity
  | negSucc m =>
    obtain ⟨a, ha⟩ := int_shiftRight_negSucc_exists m ((w : Int) - 1)
    rw [int_shiftLeft_one, show (2 * Int.negSucc m) = Int.negSucc (2 * m + 1) by
      rw [Int.negSucc_eq, Int.negSucc_eq]; push_cast; ring, ha, int_xor_negSucc]
    positivity

/-! ## Varint lemmas -/

lemma ldiff_127_eq (m : Nat) : Nat.ldiff m 127 = (m >>> 7) <<< 7 := by
  apply Nat.eq_of_testBit_eq
  intro i
  rw [Nat.testBit_ldiff, show (127 : Nat) = 2 ^ 7 - 1 by norm_num,
    Nat.testBit_two_pow_sub_one, Nat.testBit_shiftLeft, Nat.testBit_shiftRight]
  by_cases h : i < 7
  · simp [h, Nat.not_le_of_lt h]
  · have h7 : 7 ≤ i := Nat.le_of_not_lt h
    simp [h, h7, Nat.add_sub_cancel' h7]

lemma ldiff_127_eq_zero_iff (m : Nat) : Nat.ldiff m 127 = 0 ↔ m < 128 := by
  rw [ldiff_127_eq, Nat.shiftLeft_eq, Nat.shiftRight_eq_div_pow]
  norm_num
  omega

lemma land_lnot_127 (n : Int) : Int.land n (Int.lnot 0x7f) = 0 ↔ 0 ≤ n ∧ n < 128 := by
  cases n with
  | ofNat m =>
    rw [show Int.lnot 0x7f = Int.negSucc 127 from rfl,
      show Int.land (Int.ofNat m) (Int.negSucc 127) = ((Nat.ldiff m 127 : Nat) : Int) from rfl]
    rw [Int.ofNat_eq_coe]
    constructor
    · intro h
      have := (ldiff_127_eq_zero_iff m).mp (by exact_mod_cast h)
      constructor
      · positivity
      · exact_mod_cast this
    · intro ⟨_, h⟩
      have : m < 128 := by exact_mod_cast h
      exact_mod_cast (ldiff_127_eq_zero_iff m).mpr this
  | negSucc m =>
    rw [show Int.lnot 0x7f = Int.negSucc 127 from rfl,
      show Int.land (Int.negSucc m) (Int.negSucc 127) = Int.negSucc (m ||| 127) from rfl]
    constructor
    · intro h; exact absurd h (by simp)
    · intro ⟨h, _⟩
      exact absurd h (by simp [Int.negSucc_eq]; omega)

lemma varint_cont_byte (m : Nat) :
    (Int.lor (Int.land ((m : Nat) : Int) 0xff) 0x80).toNat = (m &&& 255) ||| 128 := rfl

lemma varint_shift (m : Nat) : ((m : Int) >>> (7 : Int)) = ((m >>> 7 : Nat) : Int) := by
  rw [show (7 : Int) = ((7 : Nat) : Int) from rfl, Int.shiftRight_coe_nat]

lemma negSucc_shiftRight7 (m : Nat) : Int.negSucc m >>> (7 : Int) = Int.negSucc (m >>> 7) := by
  rw [show (7 : Int) = ((7 : Nat) : Int) from rfl, Int.shiftRight_negSucc]

lemma writeVarintLoop_neg (fuel : Nat) : ∀ (n : Int), n < 0 → ∀ out,
    writeVarintLoop fuel n out = none := by
  induction fuel with
  | zero => intro n _ out; rfl
  | succ f ih =>
    intro n hn out
    cases n with
    | ofNat m => exact absurd hn (by simp)
    | negSucc m =>
      unfold writeVarintLoop
      rw [if_neg (fun hc => by
        have := (land_lnot_127 _).mp hc
        exact absurd this.1 (by simp [Int.negSucc_eq]; omega))]
      rw [negSucc_shiftRight7]
      exact ih _ (by simp [Int.negSucc_eq]; omega) _

lemma size_shiftRight7 {m : Nat} (h : 128 ≤ m) : Nat.size (m >>> 7) = Nat.size m - 7 := by
  have h8 : 8 ≤ Nat.size m := by
    have : 7 < Nat.size m := Nat.lt_size.mpr (by norm_num; omega)
    omega
  have hup : m < 2 ^ Nat.size m := Nat.lt_size_self m
  have hlo : 2 ^ (Nat.size m - 1) ≤ m := Nat.lt_size.mp (by omega)
  rw [Nat.shiftRight_eq_div_pow]
  apply Nat.le_antisymm
  · rw [Nat.size_le]
    apply Nat.div_lt_of_lt_mul
    calc m < 2 ^ Nat.size m := hup
    _ = 2 ^ 7 * 2 ^ (Nat.size m - 7) := by rw [← pow_add]; congr 1; omega
  · have hq : 2 ^ (Nat.size m - 8) ≤ m / 2 ^ 7 := by
      rw [Nat.le_div_iff_mul_le (by positivity)]
      calc 2 ^ (Nat.size m - 8) * 2 ^ 7 = 2 ^ (Nat.size m - 1) := by
            rw [← pow_add]; congr 1; omega
      _ ≤ m := hlo
    have := Nat.lt_size.mpr hq
    omega

lemma varintLen_small {m : Nat} (h : m < 128) : varintLen m = 1 := by
  have hs : Nat.size m ≤ 7 := Nat.size_le.mpr (by norm_num; omega)
  unfold varintLen
  have : (Nat.size m + 6) / 7 ≤ 1 := by omega
  omega

lemma varintLen_big {m : Nat} (h : 128 ≤ m) : varintLen m = varintLen (m >>> 7) + 1 := by
  have h8 : 8 ≤ Nat.size m := by
    have : 7 < Nat.size m := Nat.lt_size.mpr (by norm_num; omega)
    omega
  unfold varintLen
  rw [size_shiftRight7 h]
  omega

lemma varintLen_le (m : Nat) : varintLen m ≤ m + 1 := by
  have hs : Nat.size m ≤ m := Nat.size_le.mpr (Nat.lt_two_pow m)
  unfold varintLen
  omega

lemma shiftRight7_lt {m : Nat} (h : 0 < m) : m >>> 7 < m := by
  rw [Nat.shiftRight_eq_div_pow]
  exact Nat.div_lt_self h (by norm_num)

lemma varintBytesAux_irrel : ∀ f1 f2 m, m ≤ f1 → m ≤ f2 →
    varintBytesAux f1 m = varintBytesAux f2 m := by
  intro f1
  induction f1 with
  | zero =>
    intro f2 m hm1 _
    have : m = 0 := by omega
    subst this
    cases f2 with
    | zero => rfl
    | succ g => simp [varintBytesAux]
  | succ a ih =>
    intro f2 m hm1 hm2
    cases f2 with
    | zero =>
      have : m = 0 := by omega
      subst this
      simp [varintBytesAux]
    | succ b =>
      unfold varintBytesAux
      by_cases h : m < 128
      · rw [if_pos h, if_pos h]
      · rw [if_neg h, if_neg h]
        have hlt : m >>> 7 < m := shiftRight7_lt (by omega)
        rw [ih b (m >>> 7) (by omega) (by omega)]

lemma varintBytesN_eq (m : Nat) : varintBytesN m =
    if m < 128 then [m] else ((m &&& 255) ||| 128) :: varintBytesN (m >>> 7) := by
  unfold varintBytesN
  by_cases h : m < 128
  · rw [if_pos h]
    cases m with
    | zero => rfl
    | succ k => simp [varintBytesAux, h]
  · rw [if_neg h]
    obtain ⟨k, rfl⟩ : ∃ k, m = k + 1 := ⟨m - 1, by omega⟩
    have hlt : (k + 1) >>> 7 < k + 1 := shiftRight7_lt (by omega)
    show varintBytesAux (k + 1) (k + 1) = _
    conv_lhs => rw [varintBytesAux]
    rw [if_neg h]
    rw [varintBytesAux_irrel k ((k + 1) >>> 7) ((k + 1) >>> 7) (by omega) (by omega)]

lemma writeVarintLoop_spec : ∀ m : Nat, ∀ fuel out, varintLen m ≤ fuel →
    writeVarintLoop fuel (m : Int) out = some (out ++ varintBytesN m) := by
  intro m
  induction m using Nat.strong_induction_on with
  | _ m ih =>
    intro fuel out hf
    have h1 : 1 ≤ varintLen m := le_max_left _ _
    obtain ⟨f, rfl⟩ : ∃ f, fuel = f + 1 := ⟨fuel - 1, by omega⟩
    unfold writeVarintLoop
    by_cases h : m < 128
    · rw [if_pos ((land_lnot_127 _).mpr ⟨by positivity, by exact_mod_cast h⟩)]
      rw [varintBytesN_eq, if_pos h, Int.toNat_natCast]
    · rw [if_neg (fun hc => absurd ((land_lnot_127 _).mp hc).2
        (by push_neg; exact_mod_cast Nat.le_of_not_lt h))]
      rw [varint_shift, varint_cont_byte]
      have hlt : m >>> 7 < m := shiftRight7_lt (by omega)
      rw [ih _ hlt f (out ++ [(m &&& 255) ||| 128])
        (by rw [varintLen_big (by omega)] at hf; omega)]
      conv_rhs => rw [varintBytesN_eq]
      rw [if_neg h]
      simp

lemma writeVarint_eq {n : Int} (h : 0 ≤ n) : writeVarint n = some (varintBytesN n.toNat) := by
  obtain ⟨mm, rfl⟩ := Int.eq_ofNat_of_zero_le h
  unfold writeVarint
  simp only [Int.ofNat_eq_coe, Int.toNat_natCast]
  exact writeVarintLoop_spec mm (mm + 1) [] (varintLen_le mm)

lemma varintBytesN_length (m : Nat) : (varintBytesN m).length = varintLen m := by
  induction m using Nat.strong_induction_on with
  | _ m ih =>
    rw [varintBytesN_eq]
    by_cases h : m < 128
    · rw [if_pos h, varintLen_small h]
      rfl
    · rw [if_neg h]
      have hlt : m >>> 7 < m := shiftRight7_lt (by omega)
      rw [varintLen_big (by omega)]
      simp [ih _ hlt]

lemma and_127_eq_mod (m : Nat) : m &&& 127 = m % 128 := by
  apply Nat.eq_of_testBit_eq
  intro i
  rw [Nat.testBit_and, show (127 : Nat) = 2 ^ 7 - 1 by norm_num,
    Nat.testBit_two_pow_sub_one, show (128 : Nat) = 2 ^ 7 by norm_num,
    Nat.testBit_mod_two_pow]
  by_cases h : i < 7 <;> simp [h]

lemma cont_byte_and_127 (m : Nat) : (((m &&& 255) ||| 128) &&& 127) = m % 128 := by
  apply Nat.eq_of_testBit_eq
  intro i
  rw [Nat.testBit_and, Nat.testBit_or, Nat.testBit_and,
    show (127 : Nat) = 2 ^ 7 - 1 by norm_num, Nat.testBit_two_pow_sub_one,
    show (255 : Nat) = 2 ^ 8 - 1 by norm_num, Nat.testBit_two_pow_sub_one,
    show (128 : Nat) = 2 ^ 7 by norm_num, Nat.testBit_mod_two_pow,
    Nat.testBit_two_pow]
  by_cases h : i < 7
  · have h7i : ¬(7 = i) := by omega
    have h8 : i < 8 := by omega
    simp [h, h7i, h8]
  · simp [h]

lemma cont_byte_shiftRight7 (m : Nat) : ((m &&& 255) ||| 128) >>> 7 ≠ 0 := by
  intro hc
  have hb : ((m &&& 255) ||| 128) < 128 := by
    rw [Nat.shiftRight_eq_div_pow] at hc
    norm_num at hc
    omega
  have h7 : Nat.testBit ((m &&& 255) ||| 128) 7 = false :=
    Nat.testBit_lt_two_pow (by norm_num; omega)
  rw [Nat.testBit_or, show (128 : Nat) = 2 ^ 7 by norm_num, Nat.testBit_two_pow] at h7
  simp at h7

lemma or_shift_acc {acc b shift : Nat} (h : acc < 2 ^ shift) :
    acc ||| (b <<< shift) = acc + b * 2 ^ shift := by
  rw [Nat.shiftLeft_eq, Nat.mul_comm, Nat.lor_comm, ← Nat.mul_add_lt_is_or h]
  omega

lemma readVarintLoop_cons (b : Nat) (rest : List Nat) (acc shift : Nat) :
    readVarintLoop (b :: rest) acc shift =
      if b >>> 7 = 0 then some (acc ||| ((b &&& 127) <<< shift), rest)
      else readVarintLoop rest (acc ||| ((b &&& 127) <<< shift)) (shift + 7) := rfl

lemma readVarintLoop_append (m : Nat) : ∀ acc shift rest, acc < 2 ^ shift →
    readVarintLoop (varintBytesN m ++ rest) acc shift = some (acc + m * 2 ^ shift, rest) := by
  induction m using Nat.strong_induction_on with
  | _ m ih =>
    intro acc shift rest hacc
    rw [varintBytesN_eq]
    by_cases h : m < 128
    · rw [if_pos h]
      show readVarintLoop (m :: rest) acc shift = _
      rw [readVarintLoop_cons]
      have hm127 : m &&& 127 = m := by
        rw [and_127_eq_mod]
        omega
      have hm7 : m >>> 7 = 0 := by
        rw [Nat.shiftRight_eq_div_pow]
        norm_num
        omega
      rw [if_pos hm7, hm127, or_shift_acc hacc]
    · rw [if_neg h]
      show readVarintLoop (((m &&& 255) ||| 128) :: (varintBytesN (m >>> 7) ++ rest)) acc shift = _
      rw [readVarintLoop_cons, if_neg (cont_byte_shiftRight7 m), cont_byte_and_127,
        or_shift_acc hacc]
      have hlt : m >>> 7 < m := shiftRight7_lt (by omega)
      have hacc2 : acc + m % 128 * 2 ^ shift < 2 ^ (shift + 7) := by
        have hm : m % 128 ≤ 127 := by omega
        have hx : m % 128 * 2 ^ shift ≤ 127 * 2 ^ shift := Nat.mul_le_mul_right _ hm
        calc acc + m % 128 * 2 ^ shift < 2 ^ shift + 127 * 2 ^ shift :=
              Nat.add_lt_add_of_lt_of_le hacc hx
        _ = 2 ^ (shift + 7) := by rw [pow_add]; ring
      rw [ih _ hlt _ _ rest hacc2]
      congr 2
      rw [Nat.shiftRight_eq_div_pow, pow_add]
      have hdm : m % 128 + 128 * (m / 128) = m := Nat.mod_add_div m 128
      norm_num
      calc acc + m % 128 * 2 ^ shift + m / 128 * (2 ^ shift * 128)
          = acc + (m % 128 + 128 * (m / 128)) * 2 ^ shift := by ring
      _ = acc + m * 2 ^ shift := by rw [hdm]

lemma readVarint_append (m : Nat) (rest : List Nat) :
    readVarint (varintBytesN m ++ rest) = some (m, rest) := by
  unfold readVarint
  rw [readVarintLoop_append m 0 0 rest (by norm_num)]
  norm_num

/-! ## Codec-level helper lemmas -/

lemma writeVarintC_eq (c : Codec) {n : Int} (h : 0 ≤ n) :
    writeVarintC c n = some (transWrite c (varintBytesN n.toNat)) := by
  unfold writeVarintC
  rw [writeVarint_eq h]
  rfl

lemma readVarintC_eq (c : Codec) {n : Nat} {rest : List Nat}
    (h : c.inp = varintBytesN n ++ rest) :
    readVarintC c = some (n, { c with inp := rest }) := by
  unfold readVarintC
  rw [h, readVarint_append]

lemma readSizeP_eq (c : Codec) {n : Nat} {rest : List Nat}
    (h : c.inp = varintBytesN n ++ rest) :
    readSizeP c = if n ≤ 0x7fff then some (n, { c with inp := rest }) else none := by
  unfold readSizeP
  rw [readVarintC_eq c h]
  by_cases hn : n ≤ 0x7fff
  · rw [if_pos hn]
    simp
    omega
  · rw [if_neg hn]
    simp
    omega

lemma CTYPES_range {t : TType} {ct : Nat} (h : CTYPES t = some ct) :
    1 ≤ ct ∧ ct ≤ 12 := by
  cases t <;> simp [CTYPES] at h <;> omega

lemma TTYPES_CTYPES {t : TType} {ct : Nat} (h : CTYPES t = some ct) :
    TTYPES ct = some t := by
  cases t <;> simp [CTYPES] at h <;> subst h <;> rfl

lemma CTYPES_nonbool {t : TType} {ct : Nat} (h : CTYPES t = some ct)
    (hb : t ≠ .bool) : ct ≠ 1 ∧ ct ≠ 2 := by
  cases t
  all_goals first
  | exact absurd rfl hb
  | (simp [CTYPES] at h; omega)
  | simp [CTYPES] at h

lemma writeUByte_eq (c : Codec) (v : Int) (h0 : 0 ≤ v) (h1 : v < 256) :
    writeUByte c v = some (transWrite c [v.toNat]) := by
  unfold writeUByte
  rw [if_pos ⟨h0, h1⟩]

lemma writeByteP_eq (c : Codec) (v : Int) (h0 : -128 ≤ v) (h1 : v ≤ 127) :
    writeByteP c v = some (transWrite c [(v % 256).toNat]) := by
  unfold writeByteP
  rw [if_pos ⟨h0, h1⟩]

lemma writeFieldHeaderP_eq (c : Codec) (ct : Nat) (fid : Int) (hct : ct ≤ 15) :
    writeFieldHeaderP c ct fid =
      some { c with
        out := c.out ++
          (if 0 < fid - c.last_fid ∧ fid - c.last_fid ≤ 15 then
            [(fid - c.last_fid).toNat <<< 4 ||| ct]
          else ct :: varintBytesN (makeZigZag fid 16).toNat),
        last_fid := fid } := by
  by_cases h : 0 < fid - c.last_fid ∧ fid - c.last_fid ≤ 15
  · have hd0 : 0 ≤ fid - c.last_fid := by omega
    have hcast : fid - c.last_fid = (((fid - c.last_fid).toNat : Nat) : Int) :=
      (Int.toNat_of_nonneg hd0).symm
    have hsh : (fid - c.last_fid) <<< (4 : Int) =
        (((fid - c.last_fid).toNat <<< 4 : Nat) : Int) := by
      conv_lhs => rw [hcast]
      rw [show (4 : Int) = ((4 : Nat) : Int) from rfl, Int.shiftLeft_coe_nat]
    have hor : Int.lor ((fid - c.last_fid) <<< (4 : Int)) (ct : Nat) =
        ((((fid - c.last_fid).toNat <<< 4) ||| ct : Nat) : Int) := by
      rw [hsh]
      exact int_lor_coe _ _
    have hlt : ((fid - c.last_fid).toNat <<< 4) ||| ct < 256 := by
      have h15 : (fid - c.last_fid).toNat ≤ 15 := by omega
      have : (fid - c.last_fid).toNat <<< 4 < 256 := by
        rw [Nat.shiftLeft_eq]
        omega
      exact @Nat.or_lt_two_pow _ _ 8 this (by omega)
    unfold writeFieldHeaderP
    rw [if_pos h, hor,
      writeUByte_eq _ _ (by positivity) (by exact_mod_cast hlt)]
    simp [transWrite, if_pos h]
    rw [if_pos (show c.last_fid < fid ∧ fid ≤ 15 + c.last_fid by omega)]
  · have hmod : (((ct : Int)) % 256).toNat = ct := by
      have hx : ((ct : Int)) % 256 = ((ct % 256 : Nat) : Int) := by push_cast; ring_nf
      rw [hx]
      simp
      omega
    unfold writeFieldHeaderP
    rw [if_neg h, writeByteP_eq _ _ (by omega) (by omega)]
    simp only [writeI16P, hmod]
    rw [writeVarintC_eq _ (makeZigZag_nonneg fid 16)]
    simp [transWrite, if_neg h]
    rw [if_neg (show ¬(c.last_fid < fid ∧ fid ≤ 15 + c.last_fid) by omega)]

/-! ## Claim theorems -/

/-- Claim C1 (code-bug evidence): `writeMapBegin` with size 0 emits exactly
the single byte `0x00`, but `readMapBegin` on that byte fails: for size 0
no types byte is read, `types` stays 0, and `__getTType(0)` looks up
`TTYPES[0]`, which is not a key of `TTYPES` — a `KeyError` — so the empty
map can be encoded but not decoded, breaking the claimed round trip. -/
theorem emptyMap_roundtrip_fails :
    (writeMapBegin
        { out := [], inp := [], state := VALUE_WRITE, last_fid := 0,
          bool_fid := none, structs := [] } .i32 .i32 0).map Codec.out =
      some [0] ∧
    readMapBegin
        { out := [], inp := [0], state := VALUE_READ, last_fid := 0,
          bool_fid := none, structs := [] } = none := by
  decide

/-- Claim C8 (code-bug evidence): the codec starts in `CLEAR`, but
`readMessageBegin` leaves the state `CLEAR` (the source never assigns
`self.state`, unlike `writeMessageBegin`), `CLEAR` is not `READ`, and the
complete legal read of the spec's "ping" message fails at
`readMessageEnd`, whose `state == READ` assertion cannot hold — so the
codec does not return to `CLEAR` through `readMessageEnd`. -/
theorem readMessage_lifecycle_fails :
    (initCodec pingBytes).state = CLEAR ∧
    (readMessageBegin (initCodec pingBytes)).map (fun r => r.2.state) =
      some CLEAR ∧
    CLEAR ≠ READ ∧
    readPingTrace = none := by
  decide

/-- Claim C5 (code-bug evidence): the write operations struct-begin,
list-field begin, list-of-bool begin leave the codec in `CONTAINER_WRITE`,
and then `writeBool(True)` fails: `writeBool` only accepts `BOOL_WRITE`
and `VALUE_WRITE` and raises "Invalid state in compact protocol" for a
container element, instead of writing the byte `0x01`. -/
theorem writeBool_in_container_fails :
    ((applyWOps (initCodec [])
        [.structBegin, .fieldBegin [] .tlist 1, .collectionBegin .bool 1]).map
      Codec.state = some CONTAINER_WRITE) ∧
    applyWOps (initCodec []) listBoolTrace = none := by
  decide

/-- Claim C9 (counterexample): after the reachable write trace
struct-begin, `writeFieldBegin(BOOL, 1)`, `writeBool(True)`, the codec is
in state `WRITE` while `__bool_fid` is still `some 1` — `writeBool` never
resets `__bool_fid` to `None`, so "every other state implies
`__bool_fid = None`" is false. -/
theorem boolFid_not_cleared :
    (applyWOps (initCodec []) boolFieldTrace).map
      (fun c => (c.state, c.bool_fid)) = some (WRITE, some 1) ∧
    WRITE ≠ BOOL_WRITE := by
  decide

lemma writeVarintLoop_short : ∀ m fuel out, fuel < varintLen m →
    writeVarintLoop fuel (m : Nat) out = none := by
  intro m
  induction m using Nat.strong_induction_on with
  | _ m ih =>
    intro fuel out hf
    cases fuel with
    | zero => rfl
    | succ f =>
      have hm : ¬m < 128 := fun hlt => by
        rw [varintLen_small hlt] at hf
        omega
      unfold writeVarintLoop
      rw [if_neg (fun hc => absurd ((land_lnot_127 _).mp hc).2
        (by push_neg; exact_mod_cast Nat.le_of_not_lt hm))]
      rw [varint_shift, varint_cont_byte]
      have hlt : m >>> 7 < m := shiftRight7_lt (by omega)
      exact ih _ hlt f _ (by rw [varintLen_big (by omega)] at hf; omega)

/-- Claim C2: for every `n < 2^64`, `readVarint` applied to the bytes
produced by `writeVarint(n)` yields `n`; the number of bytes written is
exactly `max(1, ceil(bitlen(n)/7))`; and the codec's `__readVarint` method
is exactly the global `readVarint` with the `0x7f` mask (the `0xf7`-mask
loop after its `return` statement is dead code). -/
theorem varint_roundtrip (n : Nat) (h : n < 2 ^ 64) (rest : List Nat) :
    writeVarint (n : Int) = some (varintBytesN n) ∧
    readVarint (varintBytesN n ++ rest) = some (n, rest) ∧
    (varintBytesN n).length = max 1 ((Nat.size n + 6) / 7) ∧
    ∀ c : Codec, readVarintP c = readVarintC c := by
  refine ⟨?_, readVarint_append n rest, ?_, fun c => rfl⟩
  · have hw := @writeVarint_eq ((n : Nat) : Int) (by positivity)
    simpa using hw
  · rw [varintBytesN_length]
    rfl

theorem varint_roundtrip_witness :
    (300 : Nat) < 2 ^ 64 ∧
    (writeVarint ((300 : Nat) : Int) = some (varintBytesN 300) ∧
     readVarint (varintBytesN 300 ++ []) = some (300, []) ∧
     (varintBytesN 300).length = max 1 ((Nat.size 300 + 6) / 7) ∧
     ∀ c : Codec, readVarintP c = readVarintC c) :=
  ⟨by decide, varint_roundtrip 300 (by decide) []⟩

/-- Claim C3: for widths 16, 32 and 64 and every `n` in
`[-2^(w-1), 2^(w-1))`, `fromZigZag (makeZigZag n w) = n`, and
`makeZigZag n w` is `2n` for `n >= 0` and `-2n-1` for `n < 0`. -/
theorem zigzag_bijection (w : Nat) (hw : w = 16 ∨ w = 32 ∨ w = 64) (n : Int)
    (h1 : -(2 ^ (w - 1)) ≤ n) (h2 : n < 2 ^ (w - 1)) :
    fromZigZag (makeZigZag n w) = n ∧
    makeZigZag n w = if 0 ≤ n then 2 * n else -2 * n - 1 := by
  have hw1 : 1 ≤ w := by rcases hw with rfl | rfl | rfl <;> norm_num
  exact ⟨zigzag_roundtrip hw1 h1 h2, makeZigZag_eq hw1 h1 h2⟩

theorem zigzag_bijection_witness :
    ((16 : Nat) = 16 ∨ (16 : Nat) = 32 ∨ (16 : Nat) = 64) ∧
    (-(2 ^ (16 - 1)) ≤ (-5 : Int)) ∧ ((-5 : Int) < 2 ^ (16 - 1)) ∧
    (fromZigZag (makeZigZag (-5) 16) = -5 ∧
     makeZigZag (-5) 16 = if 0 ≤ (-5 : Int) then 2 * (-5) else -2 * (-5) - 1) :=
  ⟨Or.inl rfl, by decide, by decide,
    zigzag_bijection 16 (Or.inl rfl) (-5) (by decide) (by decide)⟩

/-- Claim C10: `writeVarint`'s loop terminates for every `n >= 0`, running
exactly `max(1, ceil(bitlen(n)/7))` iterations (it succeeds with fuel
`f` exactly when `f` is at least that number), and for every `n < 0` it
never terminates (no amount of fuel makes it return), so non-negativity is
a necessary precondition of every varint emission. -/
theorem writeVarint_termination :
    (∀ n : Int, n < 0 → ∀ (fuel : Nat) (out : List Nat),
      writeVarintLoop fuel n out = none) ∧
    (∀ (m fuel : Nat),
      (writeVarintLoop fuel (m : Nat) []).isSome ↔
        max 1 ((Nat.size m + 6) / 7) ≤ fuel) ∧
    (∀ m : Nat, writeVarint (m : Nat) = some (varintBytesN m) ∧
      (varintBytesN m).length = max 1 ((Nat.size m + 6) / 7)) := by
  refine ⟨fun n hn fuel out => writeVarintLoop_neg fuel n hn out,
    fun m fuel => ?_, fun m => ⟨?_, ?_⟩⟩
  · constructor
    · intro hs
      by_contra hlt
      push_neg at hlt
      rw [writeVarintLoop_short m fuel [] hlt] at hs
      exact Bool.noConfusion hs
    · intro hle
      rw [writeVarintLoop_spec m fuel [] hle]
      rfl
  · have hw := @writeVarint_eq ((m : Nat) : Int) (by positivity)
    simpa using hw
  · rw [varintBytesN_length]
    rfl

theorem writeVarint_termination_witness :
    ((-1 : Int) < 0) ∧ writeVarintLoop 5 (-1) [] = none :=
  ⟨by decide, writeVarint_termination.1 (-1) (by decide) 5 []⟩

/-- Claim C4: in state `WRITE`, `writeFieldBegin(name, BOOL, fid)` emits no
bytes and latches `(BOOL_WRITE, fid)`; the subsequent `writeBool(v)` emits
exactly the field header for `fid` with wire type `TRUE = 1` if `v` and
`FALSE = 2` otherwise (short or long form as dictated by the delta), and
no separate value byte; the state returns to `WRITE` and `__last_fid`
becomes `fid`. -/
theorem boolField_header_folding (c : Codec) (name : List Nat) (fid : Int)
    (v : Bool) (h : c.state = WRITE) :
    writeFieldBegin c name .bool fid =
      some { c with state := BOOL_WRITE, bool_fid := some fid } ∧
    writeBool { c with state := BOOL_WRITE, bool_fid := some fid } v =
      some { c with
        out := c.out ++
          (if 0 < fid - c.last_fid ∧ fid - c.last_fid ≤ 15 then
            [(fid - c.last_fid).toNat <<< 4 ||| (if v then 1 else 2)]
          else (if v then 1 else 2) ::
            varintBytesN (makeZigZag fid 16).toNat),
        state := WRITE, bool_fid := some fid, last_fid := fid } := by
  have hty : types v = if v then 1 else 2 := by cases v <;> rfl
  have hle : types v ≤ 15 := by cases v <;> decide
  constructor
  · unfold writeFieldBegin
    rw [if_pos h, if_pos rfl]
  · unfold writeBool
    simp [hty]
    rw [writeFieldHeaderP_eq _ (if v = true then 1 else 2) fid (by cases v <;> decide)]
    simp

theorem boolField_header_folding_witness :
    writeFieldBegin
        { out := [], inp := [], state := WRITE, last_fid := 0,
          bool_fid := none, structs := [] } [] .bool 1 =
      some { out := [], inp := [], state := BOOL_WRITE, last_fid := 0,
             bool_fid := some 1, structs := [] } ∧
    writeBool
        { out := [], inp := [], state := BOOL_WRITE, last_fid := 0,
          bool_fid := some 1, structs := [] } true =
      some { out := [0x11], inp := [], state := WRITE, last_fid := 1,
             bool_fid := some 1, structs := [] } := by
  have h := boolField_header_folding
    { out := [], inp := [], state := WRITE, last_fid := 0,
      bool_fid := none, structs := [] } [] 1 true rfl
  refine ⟨h.1, ?_⟩
  rw [h.2]
  decide

lemma readUByte_cons (c : Codec) {b : Nat} {rest : List Nat}
    (h : c.inp = b :: rest) :
    readUByte c = some (b, { c with inp := rest }) := by
  unfold readUByte
  rw [h]

lemma header_low {ct : Nat} (delta : Nat) (h : ct < 16) :
    ((delta <<< 4) ||| ct) &&& 15 = ct := by
  apply Nat.eq_of_testBit_eq
  intro i
  rw [Nat.testBit_and, Nat.testBit_or, Nat.testBit_shiftLeft,
    show (15 : Nat) = 2 ^ 4 - 1 by norm_num, Nat.testBit_two_pow_sub_one]
  by_cases hi : i < 4
  · simp [hi, Nat.not_le_of_lt hi]
  · have hct : Nat.testBit ct i = false :=
      Nat.testBit_lt_two_pow (lt_of_lt_of_le (show ct < 2 ^ 4 by omega)
        (Nat.pow_le_pow_right (by norm_num) (by omega)))
    simp [hi, hct]

lemma header_high {ct : Nat} (delta : Nat) (h : ct < 16) :
    ((delta <<< 4) ||| ct) >>> 4 = delta := by
  apply Nat.eq_of_testBit_eq
  intro i
  rw [Nat.testBit_shiftRight, Nat.testBit_or, Nat.testBit_shiftLeft]
  have hct : Nat.testBit ct (4 + i) = false :=
    Nat.testBit_lt_two_pow (lt_of_lt_of_le (show ct < 2 ^ 4 by omega)
      (Nat.pow_le_pow_right (by norm_num) (by omega)))
  simp [hct, Nat.add_sub_cancel_left]

/-- Claim C7: every size decoded on the read side — `__readSize` itself,
string lengths via `readString`, long-form collection sizes via
`readCollectionBegin`, map sizes via `readMapBegin` — fails with a
protocol error exactly when the size exceeds `0x7FFF`, and is returned
unchanged otherwise. -/
theorem read_size_validation :
    (∀ (n : Nat) (rest : List Nat) (c : Codec),
      c.inp = varintBytesN n ++ rest →
      readSizeP c =
        if n ≤ 0x7fff then some (n, { c with inp := rest }) else none) ∧
    (∀ (s rest : List Nat) (c : Codec), c.state = VALUE_READ →
      c.inp = varintBytesN s.length ++ (s ++ rest) →
      readString c =
        if s.length ≤ 0x7fff then some (s, { c with inp := rest, state := READ })
        else none) ∧
    (∀ (n ct : Nat) (t : TType) (rest : List Nat) (c : Codec),
      c.state = VALUE_READ → ct < 16 → TTYPES ct = some t →
      c.inp = ((15 <<< 4) ||| ct) :: (varintBytesN n ++ rest) →
      readCollectionBegin c =
        if n ≤ 0x7fff then
          some ((t, n), { c with inp := rest, state := CONTAINER_READ })
        else none) ∧
    (∀ (n : Nat) (rest : List Nat) (c : Codec), c.state = VALUE_READ →
      0x7fff < n → c.inp = varintBytesN n ++ rest →
      readMapBegin c = none) ∧
    (∀ (n tb : Nat) (kt vt : TType) (rest : List Nat) (c : Codec),
      c.state = VALUE_READ → 0 < n → n ≤ 0x7fff →
      TTYPES (tb &&& 15) = some vt → TTYPES ((tb >>> 4) &&& 15) = some kt →
      c.inp = varintBytesN n ++ (tb :: rest) →
      readMapBegin c =
        some ((kt, vt, n), { c with inp := rest, state := CONTAINER_READ })) := by
  refine ⟨fun n rest c hinp => readSizeP_eq c hinp, ?_, ?_, ?_, ?_⟩
  · intro s rest c hs hinp
    unfold readString reader readStringP
    rw [if_pos (Or.inl hs)]
    rw [readSizeP_eq c hinp]
    by_cases hn : s.length ≤ 0x7fff
    · rw [if_pos hn, if_pos hn]
      unfold readAllC
      simp [List.take_left, List.drop_left, hs]
    · rw [if_neg hn, if_neg hn]
  · intro n ct t rest c hs hct hT hinp
    unfold readCollectionBegin getTType
    rw [if_pos hs,
      readUByte_cons { c with state := CONTAINER_READ }
        (show ({ c with state := CONTAINER_READ } : Codec).inp =
          ((15 <<< 4) ||| ct) :: (varintBytesN n ++ rest) by simpa using hinp)]
    simp only [header_low _ hct, hT, header_high _ hct, if_pos (show (15 : Nat) = 15 from rfl)]
    rw [readSizeP_eq { c with state := CONTAINER_READ, inp := varintBytesN n ++ rest } rfl]
    by_cases hn : n ≤ 0x7fff
    · rw [if_pos hn, if_pos hn]
      simp
    · rw [if_neg hn, if_neg hn]
      simp
  · intro n rest c hs hn hinp
    unfold readMapBegin
    rw [if_pos hs,
      readSizeP_eq { c with state := CONTAINER_READ }
        (show ({ c with state := CONTAINER_READ } : Codec).inp =
          varintBytesN n ++ rest by simpa using hinp),
      if_neg (by omega)]
  · intro n tb kt vt rest c hs hn1 hn2 hvt hkt hinp
    unfold readMapBegin getTType
    rw [if_pos hs,
      readSizeP_eq { c with state := CONTAINER_READ }
        (show ({ c with state := CONTAINER_READ } : Codec).inp =
          varintBytesN n ++ (tb :: rest) by simpa using hinp),
      if_pos hn2]
    simp only [gt_iff_lt, hn1, if_true]
    rw [readUByte_cons { c with state := CONTAINER_READ, inp := tb :: rest } rfl]
    simp [hvt, hkt]

theorem read_size_validation_witness :
    readSizeP
      { out := [], inp := varintBytesN 0x8000, state := VALUE_READ,
        last_fid := 0, bool_fid := none, structs := [] } = none := by
  have h := read_size_validation.1 0x8000 []
    { out := [], inp := varintBytesN 0x8000, state := VALUE_READ,
      last_fid := 0, bool_fid := none, structs := [] } (by simp)
  rw [h, if_neg (by decide)]

lemma and_15_small {ct : Nat} (h : ct < 16) : ct &&& 15 = ct := by
  rw [show (15 : Nat) = 2 ^ 4 - 1 by norm_num]
  exact Nat.and_pow_two_sub_one_of_lt_two_pow h

lemma shiftRight4_small {ct : Nat} (h : ct < 16) : ct >>> 4 = 0 := by
  rw [Nat.shiftRight_eq_div_pow]
  norm_num
  omega

/-- Claim C6: with any `last_fid` (within int16 range for the long case)
and a non-BOOL type, a field with id `last_fid + 15` uses the one-byte
short form `(delta << 4) | ctype` while `last_fid + 16` uses the long
form — the ctype byte (whose high nibble is 0) followed by the field id as
a zigzag-varint int16 — and `readFieldBegin` recovers the same kind and
field id from those bytes, both sides setting `last_fid` to the field
id. -/
theorem field_header_short_long_form
    (c : Codec) (name rest : List Nat) (t : TType) (ct : Nat)
    (hW : c.state = WRITE) (hb : t ≠ .bool) (hct : CTYPES t = some ct) :
    (writeFieldBegin c name t (c.last_fid + 15) =
      some { c with out := c.out ++ [15 <<< 4 ||| ct], state := VALUE_WRITE,
                    last_fid := c.last_fid + 15 }) ∧
    (∀ r : Codec, r.state = READ → r.last_fid = c.last_fid →
      r.inp = (15 <<< 4 ||| ct) :: rest →
      readFieldBegin r =
        some ((t, c.last_fid + 15),
          { r with inp := rest, last_fid := c.last_fid + 15,
                   state := VALUE_READ })) ∧
    (-(2 ^ 15) ≤ c.last_fid + 16 → c.last_fid + 16 < 2 ^ 15 →
      (writeFieldBegin c name t (c.last_fid + 16) =
        some { c with
          out := c.out ++
            ct :: varintBytesN (makeZigZag (c.last_fid + 16) 16).toNat,
          state := VALUE_WRITE, last_fid := c.last_fid + 16 } ∧
       ct >>> 4 = 0 ∧
       ∀ r : Codec, r.state = READ →
         r.inp = ct ::
           (varintBytesN (makeZigZag (c.last_fid + 16) 16).toNat ++ rest) →
         readFieldBegin r =
           some ((t, c.last_fid + 16),
             { r with inp := rest, last_fid := c.last_fid + 16,
                      state := VALUE_READ }))) := by
  have hr12 := CTYPES_range hct
  have hnb := CTYPES_nonbool hct hb
  have hlt16 : ct < 16 := by omega
  have hle15 : ct ≤ 15 := by omega
  refine ⟨?_, ?_, fun hlo hhi => ⟨?_, shiftRight4_small hlt16, ?_⟩⟩
  · unfold writeFieldBegin
    rw [if_pos hW, if_neg hb, hct]
    simp only [writeFieldHeaderP_eq c ct (c.last_fid + 15) hle15]
    have hd : c.last_fid + 15 - c.last_fid = 15 := by ring
    simp [hd]
  · intro r hr hlast hinp
    have hst : (if ct = CompactTRUE then TRUE_READ
        else if ct = CompactFALSE then FALSE_READ else VALUE_READ) =
        VALUE_READ := by
      rw [if_neg (show ¬ct = CompactTRUE by unfold CompactTRUE; omega),
        if_neg (show ¬ct = CompactFALSE by unfold CompactFALSE; omega)]
    unfold readFieldBegin
    rw [if_pos hr, readUByte_cons r hinp]
    simp only [header_low 15 hlt16, header_high 15 hlt16]
    rw [if_neg (show ¬ct = 0 by omega), if_neg (show ¬(15 : Nat) = 0 by norm_num)]
    simp [TTYPES_CTYPES hct, hlast, hst]
  · unfold writeFieldBegin
    rw [if_pos hW, if_neg hb, hct]
    simp only [writeFieldHeaderP_eq c ct (c.last_fid + 16) hle15]
    have hd : c.last_fid + 16 - c.last_fid = 16 := by ring
    simp [hd]
  · intro r hr hinp
    unfold readFieldBegin
    rw [if_pos hr, readUByte_cons r hinp]
    simp only [and_15_small hlt16, shiftRight4_small hlt16]
    rw [if_neg (show ¬ct = 0 by omega)]
    simp only [if_true]
    have hzz :
        readZigZagP
          { r with
            inp := varintBytesN (makeZigZag (c.last_fid + 16) 16).toNat ++ rest } =
        some (c.last_fid + 16, { r with inp := rest }) := by
      unfold readZigZagP
      rw [readVarintC_eq _ rfl]
      have hnn : 0 ≤ makeZigZag (c.last_fid + 16) 16 := makeZigZag_nonneg _ _
      have hcast : (((makeZigZag (c.last_fid + 16) 16).toNat : Nat) : Int) =
          makeZigZag (c.last_fid + 16) 16 := Int.toNat_of_nonneg hnn
      simp only [hcast]
      rw [zigzag_roundtrip (by norm_num) hlo hhi]
    rw [hzz]
    simp [TTYPES_CTYPES hct, CompactTRUE, CompactFALSE]
    rw [if_neg (by omega), if_neg (by omega)]

theorem field_header_short_long_form_witness :
    writeFieldBegin
        { out := [], inp := [], state := WRITE, last_fid := 0,
          bool_fid := none, structs := [] } [] .i32 15 =
      some { out := [0xf5], inp := [], state := VALUE_WRITE, last_fid := 15,
             bool_fid := none, structs := [] } ∧
    readFieldBegin
        { out := [], inp := [0xf5], state := READ, last_fid := 0,
          bool_fid := none, structs := [] } =
      some ((.i32, 15),
        { out := [], inp := [], state := VALUE_READ, last_fid := 15,
          bool_fid := none, structs := [] }) ∧
    writeFieldBegin
        { out := [], inp := [], state := WRITE, last_fid := 0,
          bool_fid := none, structs := [] } [] .i32 16 =
      some { out := [5, 32], inp := [], state := VALUE_WRITE, last_fid := 16,
             bool_fid := none, structs := [] } ∧
    readFieldBegin
        { out := [], inp := [5, 32], state := READ, last_fid := 0,
          bool_fid := none, structs := [] } =
      some ((.i32, 16),
        { out := [], inp := [], state := VALUE_READ, last_fid := 16,
          bool_fid := none, structs := [] }) := by
  have h := field_header_short_long_form
    { out := [], inp := [], state := WRITE, last_fid := 0,
      bool_fid := none, structs := [] } [] [] .i32 5 rfl (by decide) rfl
  have h3 := h.2.2 (by decide) (by decide)
  refine ⟨h.1.trans (by decide), ?_, h3.1.trans (by decide), ?_⟩
  · exact (h.2.1
      { out := [], inp := [0xf5], state := READ, last_fid := 0,
        bool_fid := none, structs := [] } rfl rfl (by decide)).trans (by decide)
  · exact (h3.2.2
      { out := [], inp := [5, 32], state := READ, last_fid := 0,
        bool_fid := none, structs := [] } rfl (by decide)).trans (by decide)

/-! ## Control-field preservation for the C9 invariant -/

lemma writeUByte_fields {c c' : Codec} {v : Int} (h : writeUByte c v = some c') :
    c'.state = c.state ∧ c'.bool_fid = c.bool_fid ∧ c'.structs = c.structs := by
  unfold writeUByte at h
  split at h
  · injection h with h2
    subst h2
    exact ⟨rfl, rfl, rfl⟩
  · exact Option.noConfusion h

lemma writeByteP_fields {c c' : Codec} {v : Int} (h : writeByteP c v = some c') :
    c'.state = c.state ∧ c'.bool_fid = c.bool_fid ∧ c'.structs = c.structs := by
  unfold writeByteP at h
  split at h
  · injection h with h2
    subst h2
    exact ⟨rfl, rfl, rfl⟩
  · exact Option.noConfusion h

lemma writeVarintC_fields {c c' : Codec} {n : Int}
    (h : writeVarintC c n = some c') :
    c'.state = c.state ∧ c'.bool_fid = c.bool_fid ∧ c'.structs = c.structs := by
  unfold writeVarintC at h
  cases hw : writeVarint n with
  | none => rw [hw] at h; exact Option.noConfusion h
  | some bs =>
    rw [hw] at h
    injection h with h2
    subst h2
    exact ⟨rfl, rfl, rfl⟩

lemma writeI16P_fields {c c' : Codec} {v : Int} (h : writeI16P c v = some c') :
    c'.state = c.state ∧ c'.bool_fid = c.bool_fid ∧ c'.structs = c.structs :=
  writeVarintC_fields h

lemma writeStringP_fields {c c' : Codec} {s : List Nat}
    (h : writeStringP c s = some c') :
    c'.state = c.state ∧ c'.bool_fid = c.bool_fid ∧ c'.structs = c.structs := by
  unfold writeStringP at h
  split at h
  · exact Option.noConfusion h
  · rename_i c1 heq
    injection h with h2
    subst h2
    have hp := writeVarintC_fields
      (show writeVarintC c (s.length : Int) = some c1 from heq)
    exact ⟨hp.1, hp.2.1, hp.2.2⟩

lemma writeFieldHeaderP_fields {c c' : Codec} {ty : Nat} {fid : Int}
    (h : writeFieldHeaderP c ty fid = some c') :
    c'.state = c.state ∧ c'.bool_fid = c.bool_fid ∧ c'.structs = c.structs := by
  unfold writeFieldHeaderP at h
  split at h
  · exact Option.noConfusion h
  · rename_i c2 heq
    injection h with h2
    subst h2
    split at heq
    · have := writeUByte_fields heq
      exact this
    · split at heq
      · exact Option.noConfusion heq
      · rename_i c1 heq1
        have h1 := writeByteP_fields heq1
        have h2 := writeI16P_fields heq
        exact ⟨h2.1.trans h1.1, h2.2.1.trans h1.2.1, h2.2.2.trans h1.2.2⟩

lemma writer_fields {f : Codec → Option Codec} {c c' : Codec}
    (hf : ∀ d d', f d = some d' →
      d'.state = d.state ∧ d'.bool_fid = d.bool_fid ∧ d'.structs = d.structs)
    (h : writer f c = some c') :
    (c'.state = WRITE ∨ c'.state = CONTAINER_WRITE) ∧
    c'.bool_fid = c.bool_fid ∧ c'.structs = c.structs := by
  unfold writer at h
  split at h
  · rename_i hst
    split at h
    · exact Option.noConfusion h
    · rename_i c1 heq
      have hp := hf _ _ heq
      injection h with h2
      subst h2
      split
      · exact ⟨Or.inl rfl, hp.2.1, hp.2.2⟩
      · rename_i hne
        rcases hst with hst | hst
        · exact absurd (hp.1.trans hst) hne
        · exact ⟨Or.inr (hp.1.trans hst), hp.2.1, hp.2.2⟩
  · exact Option.noConfusion h

lemma applyWOp_inv {c c' : Codec} (op : WOp)
    (h1 : c.state = BOOL_WRITE → c.bool_fid.isSome)
    (h2 : ∀ p ∈ c.structs, p.1 ≠ BOOL_WRITE)
    (h : applyWOp c op = some c') :
    (c'.state = BOOL_WRITE → c'.bool_fid.isSome) ∧
    ∀ p ∈ c'.structs, p.1 ≠ BOOL_WRITE := by
  cases op with
  | messageBegin name t s =>
    simp only [applyWOp] at h
    unfold writeMessageBegin at h
    split at h
    · split at h
      · exact Option.noConfusion h
      · rename_i c1 heq1
        split at h
        · exact Option.noConfusion h
        · rename_i c2 heq2
          split at h
          · exact Option.noConfusion h
          · rename_i c3 heq3
            split at h
            · exact Option.noConfusion h
            · rename_i c4 heq4
              injection h with hc
              subst hc
              have hs4 : c4.structs = c.structs := by
                rw [(writeStringP_fields heq4).2.2, (writeVarintC_fields heq3).2.2,
                  (writeUByte_fields heq2).2.2, (writeUByte_fields heq1).2.2]
              constructor
              · intro hst
                simp [WRITE, BOOL_WRITE] at hst
              · simpa [hs4] using h2
    · exact Option.noConfusion h
  | messageEnd =>
    simp only [applyWOp] at h
    unfold writeMessageEnd at h
    split at h
    · injection h with hc
      subst hc
      constructor
      · intro hst
        simp [CLEAR, BOOL_WRITE] at hst
      · simpa using h2
    · exact Option.noConfusion h
  | structBegin =>
    simp only [applyWOp] at h
    unfold writeStructBegin at h
    split at h
    · rename_i hg
      injection h with hc
      subst hc
      constructor
      · intro hst
        simp [WRITE, BOOL_WRITE] at hst
      · intro p hp
        simp only [List.mem_cons] at hp
        rcases hp with rfl | hp
        · rcases hg with hg | hg | hg | hg <;>
            simp [hg, CLEAR, WRITE, CONTAINER_WRITE, VALUE_WRITE, BOOL_WRITE]
        · exact h2 p hp
    · exact Option.noConfusion h
  | structEnd =>
    simp only [applyWOp] at h
    unfold writeStructEnd at h
    split at h
    · split at h
      · exact Option.noConfusion h
      · rename_i junk s f rest hsf
        injection h with hc
        subst hc
        have hhead : s ≠ BOOL_WRITE := by
          have := h2 (s, f) (by rw [hsf]; exact List.mem_cons_self _ _)
          simpa using this
        constructor
        · intro hst
          simp only at hst
          split at hst
          · simp [WRITE, BOOL_WRITE] at hst
          · exact absurd hst hhead
        · intro p hp
          exact h2 p (by rw [hsf]; exact List.mem_cons_of_mem _ hp)
    · exact Option.noConfusion h
  | fieldBegin name ty fid =>
    simp only [applyWOp] at h
    unfold writeFieldBegin at h
    split at h
    · split at h
      · injection h with hc
        subst hc
        exact ⟨fun _ => rfl, by simpa using h2⟩
      · split at h
        · exact Option.noConfusion h
        · rename_i ct hct
          split at h
          · exact Option.noConfusion h
          · rename_i c1 heq
            injection h with hc
            subst hc
            constructor
            · intro hst
              simp [VALUE_WRITE, BOOL_WRITE] at hst
            · have hs : c1.structs = c.structs := (writeFieldHeaderP_fields heq).2.2
              simpa [hs] using h2
    · exact Option.noConfusion h
  | fieldStop =>
    simp only [applyWOp] at h
    unfold writeFieldStop at h
    have hp := writeByteP_fields h
    constructor
    · intro hst
      rw [hp.2.1]
      exact h1 (hp.1 ▸ hst)
    · intro p hmem
      exact h2 p (hp.2.2 ▸ hmem)
  | wbool b =>
    simp only [applyWOp] at h
    unfold writeBool at h
    split at h
    · exact Option.noConfusion h
    · rename_i c1 heq
      injection h with hc
      subst hc
      have hs : c1.structs = c.structs := by
        split at heq
        · split at heq
          · exact Option.noConfusion heq
          · exact (writeFieldHeaderP_fields heq).2.2
        · split at heq
          · exact (writeByteP_fields heq).2.2
          · exact Option.noConfusion heq
      constructor
      · intro hst
        simp [WRITE, BOOL_WRITE] at hst
      · simpa [hs] using h2
  | wbyte v =>
    simp only [applyWOp] at h
    unfold writeByte at h
    have hp := writer_fields (fun d d' hh => writeByteP_fields hh) h
    constructor
    · intro hst
      rcases hp.1 with hw | hw <;> rw [hw] at hst <;>
        simp [WRITE, CONTAINER_WRITE, BOOL_WRITE] at hst
    · intro p hmem
      exact h2 p (hp.2.2 ▸ hmem)
  | wi16 v =>
    simp only [applyWOp] at h
    unfold writeI16 at h
    have hp := writer_fields (fun d d' hh => writeI16P_fields hh) h
    constructor
    · intro hst
      rcases hp.1 with hw | hw <;> rw [hw] at hst <;>
        simp [WRITE, CONTAINER_WRITE, BOOL_WRITE] at hst
    · intro p hmem
      exact h2 p (hp.2.2 ▸ hmem)
  | wi32 v =>
    simp only [applyWOp] at h
    unfold writeI32 at h
    have hp := writer_fields (fun d d' hh => writeVarintC_fields hh) h
    constructor
    · intro hst
      rcases hp.1 with hw | hw <;> rw [hw] at hst <;>
        simp [WRITE, CONTAINER_WRITE, BOOL_WRITE] at hst
    · intro p hmem
      exact h2 p (hp.2.2 ▸ hmem)
  | wi64 v =>
    simp only [applyWOp] at h
    unfold writeI64 at h
    have hp := writer_fields (fun d d' hh => writeVarintC_fields hh) h
    constructor
    · intro hst
      rcases hp.1 with hw | hw <;> rw [hw] at hst <;>
        simp [WRITE, CONTAINER_WRITE, BOOL_WRITE] at hst
    · intro p hmem
      exact h2 p (hp.2.2 ▸ hmem)
  | wdouble bits =>
    simp only [applyWOp] at h
    unfold writeDouble at h
    have hp := writer_fields (fun d d' hh => by
      injection hh with hh2
      subst hh2
      exact ⟨rfl, rfl, rfl⟩) h
    constructor
    · intro hst
      rcases hp.1 with hw | hw <;> rw [hw] at hst <;>
        simp [WRITE, CONTAINER_WRITE, BOOL_WRITE] at hst
    · intro p hmem
      exact h2 p (hp.2.2 ▸ hmem)
  | wstring str =>
    simp only [applyWOp] at h
    unfold writeString at h
    have hp := writer_fields (fun d d' hh => writeStringP_fields hh) h
    constructor
    · intro hst
      rcases hp.1 with hw | hw <;> rw [hw] at hst <;>
        simp [WRITE, CONTAINER_WRITE, BOOL_WRITE] at hst
    · intro p hmem
      exact h2 p (hp.2.2 ▸ hmem)
  | collectionBegin ety sz =>
    simp only [applyWOp] at h
    unfold writeCollectionBegin at h
    split at h
    · split at h
      · exact Option.noConfusion h
      · rename_i ct hct
        split at h
        · exact Option.noConfusion h
        · rename_i c2 heq
          injection h with hc
          subst hc
          have hs : c2.structs = c.structs := by
            split at heq
            · exact (writeUByte_fields heq).2.2
            · split at heq
              · exact Option.noConfusion heq
              · rename_i c1 heq1
                rw [(writeVarintC_fields heq).2.2, (writeUByte_fields heq1).2.2]
          constructor
          · intro hst
            simp [CONTAINER_WRITE, BOOL_WRITE] at hst
          · simpa [hs] using h2
    · exact Option.noConfusion h
  | mapBegin kt vt sz =>
    simp only [applyWOp] at h
    unfold writeMapBegin at h
    split at h
    · split at h
      · exact Option.noConfusion h
      · rename_i c2 heq
        injection h with hc
        subst hc
        have hs : c2.structs = c.structs := by
          split at heq
          · exact (writeByteP_fields heq).2.2
          · split at heq
            · exact Option.noConfusion heq
            · rename_i c1 heq1
              split at heq
              · rename_i kc vc hkc hvc
                rw [(writeUByte_fields heq).2.2, (writeVarintC_fields heq1).2.2]
              · exact Option.noConfusion heq
        constructor
        · intro hst
          simp [CONTAINER_WRITE, BOOL_WRITE] at hst
        · simpa [hs] using h2
    · exact Option.noConfusion h
  | collectionEnd =>
    simp only [applyWOp] at h
    unfold writeCollectionEnd at h
    split at h
    · injection h with hc
      subst hc
      constructor
      · intro hst
        simp [WRITE, BOOL_WRITE] at hst
      · simpa using h2
    · exact Option.noConfusion h

lemma applyWOps_inv : ∀ (l : List WOp) (c c' : Codec),
    (c.state = BOOL_WRITE → c.bool_fid.isSome) →
    (∀ p ∈ c.structs, p.1 ≠ BOOL_WRITE) →
    applyWOps c l = some c' →
    (c'.state = BOOL_WRITE → c'.bool_fid.isSome) ∧
    ∀ p ∈ c'.structs, p.1 ≠ BOOL_WRITE := by
  intro l
  induction l with
  | nil =>
    intro c c' h1 h2 h
    injection h with hc
    subst hc
    exact ⟨h1, h2⟩
  | cons op ops ih =>
    intro c c' h1 h2 h
    unfold applyWOps at h
    split at h
    · exact Option.noConfusion h
    · rename_i c1 heq
      have hstep := applyWOp_inv op h1 h2 heq
      exact ih c1 c' hstep.1 hstep.2 h

/-- Claim C9 (amended): in every state reachable from a fresh codec by
legal write operations, `BOOL_WRITE` implies that `__bool_fid` is set; the
converse direction of the claim is false — `__bool_fid` is never reset to
`None`, so it can remain set in other states (see the counterexample). -/
theorem bool_fid_invariant (inbytes : List Nat) (l : List WOp) (c : Codec)
    (h : applyWOps (initCodec inbytes) l = some c) :
    c.state = BOOL_WRITE → c.bool_fid.isSome :=
  (applyWOps_inv l (initCodec inbytes) c
    (fun hst => by simp [initCodec, CLEAR, BOOL_WRITE] at hst)
    (fun p hp => by simp [initCodec] at hp) h).1

theorem bool_fid_invariant_witness :
    applyWOps (initCodec []) [.structBegin, .fieldBegin [] .bool 1] =
      some { out := [], inp := [], state := BOOL_WRITE, last_fid := 0,
             bool_fid := some 1, structs := [(CLEAR, 0)] } ∧
    ({ out := [], inp := [], state := BOOL_WRITE, last_fid := 0,
       bool_fid := some 1, structs := [(CLEAR, 0)] } : Codec).state =
      BOOL_WRITE ∧
    ({ out := [], inp := [], state := BOOL_WRITE, last_fid := 0,
       bool_fid := some 1, structs := [(CLEAR, 0)] } : Codec).bool_fid.isSome := by
  have happ : applyWOps (initCodec []) [.structBegin, .fieldBegin [] .bool 1] =
      some { out := [], inp := [], state := BOOL_WRITE, last_fid := 0,
             bool_fid := some 1, structs := [(CLEAR, 0)] } := by decide
  exact ⟨happ, rfl, bool_fid_invariant [] _ _ happ rfl⟩

/-- Claim C7 (counterexample): a decoded map size of 0 is at most `0x7FFF`
and `__readSize` itself returns it unchanged, yet `readMapBegin` does not
return it: after accepting the size it fails on the `TTYPES[0]` lookup
(wire code 0 is not a key), refuting "returned unchanged when it is at
most 0x7FFF" for map sizes. -/
theorem readMapBegin_small_size_fails :
    readSizeP
        { out := [], inp := [0], state := CONTAINER_READ, last_fid := 0,
          bool_fid := none, structs := [] } =
      some (0,
        { out := [], inp := [], state := CONTAINER_READ, last_fid := 0,
          bool_fid := none, structs := [] }) ∧
    (0 : Nat) ≤ 0x7fff ∧
    readMapBegin
        { out := [], inp := [0], state := VALUE_READ, last_fid := 0,
          bool_fid := none, structs := [] } = none := by
  decide
